import Mathlib

/-!
Verification of the Swift-SSH terminal-session core: a shallow embedding of
the ANSI/SGR interpreter (src/ui/terminal_panel.py), the encrypted profile
store (src/core/profile_manager.py), the transfer engine
(src/core/scp_manager.py) and the terminal session registry
(src/core/terminal.py), together with theorems settling the spec claims.
-/

namespace SwiftSSH

/-! ### ANSI interpreter (src/ui/terminal_panel.py)

`_parse_and_insert_ansi` splits each output chunk with the regex
`\x1b\[([0-9;?]*)([a-zA-Z])`, inserts the literal text between matches with
the current tag set, and dispatches each match by its final byte.  We embed
the regex scan as `scanAnsi`, the per-chunk processing as
`parse_and_insert_ansi`, and the SGR dispatch as `handle_sgr_codes`.
-/

/-- Characters matched by the `[0-9;?]*` parameter group of the regex. -/
def isParamChar (c : Char) : Bool :=
  c.isDigit || c = ';' || c = '?'

/-- Characters matched by the `[a-zA-Z]` final-byte group of the regex. -/
def isFinalByte (c : Char) : Bool :=
  ('a' ≤ c && c ≤ 'z') || ('A' ≤ c && c ≤ 'Z')

/-- A token of the regex split: either one literal character, or one whole
escape-sequence match carrying its raw parameter characters and final byte. -/
inductive Tok where
  | ch (c : Char)
  | esc (params : List Char) (cmd : Char)
deriving DecidableEq, Repr

/-- Fuelled scanner for the pattern `ESC [ params final`.  At each position,
a match requires `ESC`, `[`, a maximal run of parameter characters and then a
letter; on failure the `ESC` is literal text and scanning resumes after it,
exactly as the regex engine does.  The fuel only bounds recursion depth; one
unit per input character suffices. -/
def scanAnsiF : Nat → List Char → List Tok
  | 0, _ => []
  | _, [] => []
  | fuel + 1, c :: rest =>
    if c = '\x1b' then
      match rest with
      | '[' :: rest2 =>
        let params := rest2.takeWhile isParamChar
        match rest2.dropWhile isParamChar with
        | d :: rest4 =>
          if isFinalByte d then Tok.esc params d :: scanAnsiF fuel rest4
          else Tok.ch c :: scanAnsiF fuel rest
        | [] => Tok.ch c :: scanAnsiF fuel rest
      | _ => Tok.ch c :: scanAnsiF fuel rest
    else Tok.ch c :: scanAnsiF fuel rest

/-- Tokenize a chunk the way `ansi_escape_pattern.split` does. -/
def scanAnsi (s : List Char) : List Tok :=
  scanAnsiF s.length s

/-- One element of the regex split after the leading text: the match's raw
parameters, its final byte, and the literal text that follows it (up to the
next match or the end of the chunk). -/
structure Seg where
  params : List Char
  cmd : Char
  text : List Char
deriving DecidableEq, Repr

/-- Group the token stream into the shape `re.split` returns: the text before
the first match, then one `Seg` per match. -/
def groupToks : List Tok → List Char × List Seg
  | [] => ([], [])
  | Tok.ch c :: rest =>
    let (t, s) := groupToks rest
    (c :: t, s)
  | Tok.esc p m :: rest =>
    let (t, s) := groupToks rest
    ([], ⟨p, m, t⟩ :: s)

/-- Split a raw parameter string on `;`, as `params_str.split(';')` does
(an empty string yields one empty piece). -/
def splitSemi : List Char → List (List Char)
  | [] => [[]]
  | c :: rest =>
    match splitSemi rest with
    | [] => [[]]
    | g :: gs => if c = ';' then [] :: g :: gs else (c :: g) :: gs

/-- Numeric value of a digit string. -/
def digitsVal (l : List Char) : Nat :=
  l.foldl (fun a c => 10 * a + (c.toNat - '0'.toNat)) 0

/-- Python `int(p) if p else 0`: an empty piece is 0, a digit piece parses, and a
piece containing `?` makes `int` raise `ValueError` (`none`). -/
def paramVal (p : List Char) : Option Nat :=
  if p = [] then some 0
  else if p.all (fun c => c.isDigit) then some (digitsVal p) else none

/-- The parameter list of one match; `none` models the `ValueError` raised by
`int` on a parameter containing `?`. -/
def paramsOf (p : List Char) : Option (List Nat) :=
  (splitSemi p).mapM paramVal

/-- The map `self.ansi_color_map` from `TerminalPanel.__init__`. -/
def ansiColorMap (code : Nat) : Option String :=
  match code with
  | 30 => some "black" | 31 => some "red" | 32 => some "green"
  | 33 => some "yellow" | 34 => some "blue" | 35 => some "magenta"
  | 36 => some "cyan" | 37 => some "white"
  | 39 => some "default_fg"
  | 90 => some "bright_black" | 91 => some "bright_red"
  | 92 => some "bright_green" | 93 => some "bright_yellow"
  | 94 => some "bright_blue" | 95 => some "bright_magenta"
  | 96 => some "bright_cyan" | 97 => some "bright_white"
  | 40 => some "bg_black" | 41 => some "bg_red" | 42 => some "bg_green"
  | 43 => some "bg_yellow" | 44 => some "bg_blue" | 45 => some "bg_magenta"
  | 46 => some "bg_cyan" | 47 => some "bg_white"
  | 49 => some "default_bg"
  | 100 => some "bg_bright_black" | 101 => some "bg_bright_red"
  | 102 => some "bg_bright_green" | 103 => some "bg_bright_yellow"
  | 104 => some "bg_bright_blue" | 105 => some "bg_bright_magenta"
  | 106 => some "bg_bright_cyan" | 107 => some "bg_bright_white"
  | 1 => some "bold" | 2 => some "dim" | 4 => some "underline"
  | 5 => some "blink" | 7 => some "reverse" | 8 => some "hidden"
  | 22 => some "normal" | 24 => some "no_underline"
  | _ => none

/-- The set `self.fg_colors`: map keys in 30–37 or 90–97. -/
def fgCodes : List Nat := [30, 31, 32, 33, 34, 35, 36, 37, 90, 91, 92, 93, 94, 95, 96, 97]

/-- The set `self.bg_colors`: map keys in 40–47 or 100–107. -/
def bgCodes : List Nat := [40, 41, 42, 43, 44, 45, 46, 47, 100, 101, 102, 103, 104, 105, 106, 107]

/-- The set of foreground-color tag names (`{self.ansi_color_map[c] for c in self.fg_colors}`). -/
def fgTags : Finset String :=
  fgCodes.foldr (fun c s => match ansiColorMap c with | some t => insert t s | none => s) ∅

/-- The set of background-color tag names. -/
def bgTags : Finset String :=
  bgCodes.foldr (fun c s => match ansiColorMap c with | some t => insert t s | none => s) ∅

/-- The body of the `while` loop of `_handle_sgr_codes` for one code. -/
def applySgr (tags : Finset String) (code : Nat) : Finset String :=
  if code = 0 then ∅
  else if fgCodes.contains code then
    insert ((ansiColorMap code).getD "") (tags \ fgTags)
  else if bgCodes.contains code then
    insert ((ansiColorMap code).getD "") (tags \ bgTags)
  else if code = 39 then tags \ fgTags
  else if code = 49 then tags \ bgTags
  else
    match ansiColorMap code with
    | some t =>
      if t = "normal" then (tags.erase "bold").erase "dim"
      else if t = "no_underline" then tags.erase "underline"
      else insert t tags
    | none => tags

/-- The `while i < len(codes)` loop of `_handle_sgr_codes`. -/
def sgrLoop (tags : Finset String) : List Nat → Finset String
  | [] => tags
  | c :: rest => sgrLoop (applySgr tags c) rest

/-- Model of `_handle_sgr_codes`: an empty code list or a leading 0 clears the tag set
and returns at once; otherwise every code is processed in order. -/
def handle_sgr_codes (tags : Finset String) (codes : List Nat) : Finset String :=
  match codes with
  | [] => ∅
  | c :: _ => if c = 0 then ∅ else sgrLoop tags codes

/-- One emitted run: a literal text segment and the tag set it was inserted with. -/
abbrev Run := List Char × Finset String

/-- Result of processing one chunk: the inserted runs, the tag set afterwards,
and whether processing completed without raising (`int` on a `?` parameter). -/
structure ChunkOut where
  runs : List Run
  tags : Finset String
  ok : Bool

/-- The `for i in range(0, len(parts), 3)` loop of `_parse_and_insert_ansi`:
parse the match's parameters (a failure aborts the chunk, keeping runs already
inserted), dispatch `m` matches to the SGR handler (other final bytes move the
cursor or erase buffer content and leave the tag set unchanged), then insert
the text that follows the match with the now-current tag set. -/
def runSegs (tags : Finset String) : List Seg → List Run × Finset String × Bool
  | [] => ([], tags, true)
  | sg :: rest =>
    match paramsOf sg.params with
    | none => ([], tags, false)
    | some ps =>
      let tags2 := if sg.cmd = 'm' then handle_sgr_codes tags ps else tags
      let (rs, tf, ok) := runSegs tags2 rest
      (if sg.text = [] then rs else (sg.text, tags2) :: rs, tf, ok)

/-- Model of `_parse_and_insert_ansi` restricted to what it emits into the display
buffer: the leading text is inserted with the incoming tag set, then each
match is dispatched. -/
def parse_and_insert_ansi (tags : Finset String) (chunk : List Char) : ChunkOut :=
  let (t0, segs) := groupToks (scanAnsi chunk)
  let (rs, tf, ok) := runSegs tags segs
  ⟨(if t0 = [] then [] else [(t0, tags)]) ++ rs, tf, ok⟩

/-- Feeding several chunks in sequence: the tag set persists in
`terminal_states` across chunks, and an exception in one chunk does not stop
the next chunk's callback from being processed. -/
def feedChunks (tags : Finset String) : List (List Char) → List Run × Finset String
  | [] => ([], tags)
  | c :: cs =>
    let o := parse_and_insert_ansi tags c
    let (rs, tf) := feedChunks o.tags cs
    (o.runs ++ rs, tf)

/-- Normalize a run sequence as the display buffer sees it: adjacent runs
carrying the same tag set are one contiguous insertion. -/
def normRuns : List Run → List Run
  | [] => []
  | r :: rest =>
    match normRuns rest with
    | [] => [r]
    | r2 :: rest2 =>
      if r.2 = r2.2 then (r.1 ++ r2.1, r.2) :: rest2 else r :: r2 :: rest2

/-! ### Credential vault (src/core/profile_manager.py)

The backing file holds a Fernet-encrypted JSON document mapping profile names
to profile dictionaries; each profile's password field is in turn
base64-of-Fernet ciphertext.  The Fernet cipher and the JSON layer are
external libraries; we model the whole-file layer by its three observable
outcomes (file missing, ciphertext failing authentication, mapping recovered
intact) and the password layer as an abstract cipher whose decryption
inverts encryption and may fail on other inputs. -/

/-- One profile dictionary as stored in the JSON document.  `password` holds
ciphertext at rest and plaintext in the value `get_profile` returns. -/
structure Profile where
  name : String
  host : String
  username : String
  password : String
  port : Nat
  description : String
  created : String
  last_used : Option String
deriving DecidableEq, Repr

/-- The password-field cipher (`base64` over `Fernet`): decryption inverts
encryption and is allowed to fail on any other ciphertext. -/
structure Cipher where
  enc : String → String
  dec : String → Option String
  dec_enc : ∀ s, dec (enc s) = some s

/-- The three observable states of the encrypted profiles file: absent,
present but failing decryption/authentication (or JSON parse), or present
and decrypting to a mapping. -/
inductive VaultFile where
  | missing
  | corrupt
  | stored (m : List (String × Profile))
deriving DecidableEq, Repr

/-- Python-dict lookup on the name-keyed mapping. -/
def lookupA (k : String) : List (String × Profile) → Option Profile
  | [] => none
  | (k2, v) :: rest => if k2 = k then some v else lookupA k rest

/-- Python-dict assignment `profiles[name] = data`: update in place if the
key exists, else append (insertion order preserved). -/
def insertA (k : String) (v : Profile) : List (String × Profile) → List (String × Profile)
  | [] => [(k, v)]
  | (k2, v2) :: rest => if k2 = k then (k, v) :: rest else (k2, v2) :: insertA k v rest

/-- Model of `load_profiles`: a missing file is an empty mapping; a decryption or
parse failure is caught and also yields an empty mapping. -/
def load_profiles : VaultFile → List (String × Profile)
  | VaultFile.missing => []
  | VaultFile.corrupt => []
  | VaultFile.stored m => m

/-- Model of `save_profile`: reload the mapping, build the profile dictionary with the
password encrypted, `created` stamped `now` and `last_used` carried over from
any existing entry of the same name, store it under `name` and rewrite the
file. -/
def save_profile (c : Cipher) (file : VaultFile) (name host username password : String)
    (port : Nat) (description now : String) : VaultFile × Bool :=
  let profiles := load_profiles file
  let pd : Profile :=
    { name := name, host := host, username := username,
      password := c.enc password, port := port, description := description,
      created := now,
      last_used := (lookupA name profiles).bind Profile.last_used }
  (VaultFile.stored (insertA name pd profiles), true)

/-- Model of `get_profile`: reload the mapping; an absent name is `None`, and a
password that fails to decrypt is caught and is also `None`; otherwise the
profile is returned with the password decrypted. -/
def get_profile (c : Cipher) (file : VaultFile) (name : String) : Option Profile :=
  match lookupA name (load_profiles file) with
  | none => none
  | some p =>
    match c.dec p.password with
    | some pw => some { p with password := pw }
    | none => none

/-- The sort key of `list_profiles_by_recent`:
`data.get("last_used") or data.get("created") or ""` under Python truthiness
(an absent or empty `last_used` falls back to `created`). -/
def pyKey (p : Profile) : String :=
  let lu := p.last_used.getD ""
  if lu = "" then p.created else lu

/-- Python `sorted(profiles.items(), key=sort_key, reverse=True)`: a stable
descending sort on the key. -/
def sortProfilesDesc (m : List (String × Profile)) : List (String × Profile) :=
  List.insertionSort (fun a b => pyKey b.2 ≤ pyKey a.2) m

/-- Model of `list_profiles_by_recent`: names of the mapping, most recent first. -/
def list_profiles_by_recent (file : VaultFile) : List String :=
  (sortProfilesDesc (load_profiles file)).map Prod.fst

/-- The claim's sort key: `last_used`, falling back to `created` when
`last_used` is absent. -/
def claimKey (p : Profile) : String :=
  match p.last_used with
  | some s => s
  | none => p.created

/-! ### Transfer engine (src/core/scp_manager.py)

`upload_directory` walks the tree and delegates every file to `upload_file`,
stopping at the first failure.  `upload_file` streams the file in 8 KiB
chunks through `_transfer_with_progress`, firing the progress callback once
per chunk — so a file of size `n` produces `⌈n / 8192⌉` callbacks, zero when
`n = 0`.  A file is modelled by its walk-order position, size, and whether
its single-file upload fails (missing local file or an SFTP error, which
`upload_file` catches and turns into `False`). -/

/-- One regular file of the local tree, in `os.walk` order. -/
structure FileEntry where
  path : String
  size : Nat
  fails : Bool
deriving DecidableEq, Repr

/-- Number of iterations of the `while transferred < total_size` loop in
`_transfer_with_progress` for a file of the given size: one per 8 KiB chunk. -/
def chunkCount (size : Nat) : Nat := (size + 8191) / 8192

/-- Behavior of `upload_file` as observed by `upload_directory`: the number of progress
callbacks fired and the boolean result. -/
def upload_file_sim (f : FileEntry) : Nat × Bool :=
  if f.fails then (0, false) else (chunkCount f.size, true)

/-- Observable outcome of `upload_directory`: which files had a single-file
upload started (in order), how many progress callbacks fired, and the result. -/
structure DirUploadResult where
  uploads : List String
  progressCalls : Nat
  ok : Bool
deriving DecidableEq, Repr

/-- The `os.walk` loop of `upload_directory`: upload each file, returning
`False` as soon as one `upload_file` call fails. -/
def upload_directory : List FileEntry → DirUploadResult
  | [] => ⟨[], 0, true⟩
  | f :: rest =>
    let (cbs, ok) := upload_file_sim f
    if ok then
      let r := upload_directory rest
      ⟨f.path :: r.uploads, cbs + r.progressCalls, r.ok⟩
    else ⟨[f.path], cbs, false⟩

/-! ### Terminal session and registry (src/core/terminal.py) -/

/-- A paramiko channel as `send_input` observes it: whether it is closed and
the data written to it, in order. -/
structure Channel where
  closed : Bool
  sent : List String
deriving DecidableEq, Repr

/-- The fields of `SSHTerminal` that `send_input` reads or writes. -/
structure SSHTerminal where
  connected : Bool
  running : Bool
  channel : Option Channel
deriving DecidableEq, Repr

/-- A fresh `SSHTerminal(ssh_client)`: not connected, not running, no channel. -/
def SSHTerminal.init : SSHTerminal :=
  { connected := false, running := false, channel := none }

/-- Model of `send_input`: only when `self.connected and self.channel` does it call
`channel.send(data)`; a send on a closed channel raises, and the exception is
caught and logged, leaving the session untouched. -/
def send_input (st : SSHTerminal) (data : String) : SSHTerminal :=
  if st.connected = true ∧ st.channel.isSome then
    match st.channel with
    | some ch =>
      if ch.closed then st
      else { st with channel := some { ch with sent := ch.sent ++ [data] } }
    | none => st
  else st

/-- Model of `TerminalManager`: the name-keyed session table and the default-name
counter. -/
structure TerminalManager where
  terminals : List (String × SSHTerminal)
  terminal_counter : Nat
deriving DecidableEq, Repr

/-- Python-dict assignment for the session table. -/
def insertT (k : String) (v : SSHTerminal) :
    List (String × SSHTerminal) → List (String × SSHTerminal)
  | [] => [(k, v)]
  | (k2, v2) :: rest => if k2 = k then (k, v) :: rest else (k2, v2) :: insertT k v rest

/-- A fresh `TerminalManager()`. -/
def TerminalManager.init : TerminalManager :=
  { terminals := [], terminal_counter := 0 }

/-- Model of `create_terminal`: with no name given, increment the counter and use
`f"Terminal {self.terminal_counter}"`; store a fresh session under the name. -/
def create_terminal (m : TerminalManager) (name : Option String) :
    TerminalManager × String :=
  match name with
  | none =>
    let cnt := m.terminal_counter + 1
    let nm := "Terminal " ++ toString cnt
    (⟨insertT nm SSHTerminal.init m.terminals, cnt⟩, nm)
  | some nm =>
    (⟨insertT nm SSHTerminal.init m.terminals, m.terminal_counter⟩, nm)

/-- Model of `remove_terminal`: stop and delete the named session, returning whether
it existed; the counter is not touched. -/
def remove_terminal (m : TerminalManager) (name : String) : TerminalManager × Bool :=
  if (m.terminals.map Prod.fst).contains name then
    (⟨m.terminals.filter (fun e => e.1 ≠ name), m.terminal_counter⟩, true)
  else (m, false)

/-! ### Concrete instances and witness data -/

/-- A concrete password cipher: prepend a marker byte; decryption strips it
and fails on any string not carrying it. -/
def pCipher : Cipher where
  enc := fun s => String.mk ('P' :: s.data)
  dec := fun s =>
    match s.data with
    | 'P' :: cs => some (String.mk cs)
    | _ => none
  dec_enc := fun _ => rfl

/-- A concrete profile for witness stores. -/
def mkProfile (nm : String) (lu : Option String) (cr pw : String) : Profile :=
  { name := nm, host := "h", username := "u", password := pw, port := 22,
    description := "", created := cr, last_used := lu }

/-- Witness mapping for the most-recently-used ordering. -/
def wVault : List (String × Profile) :=
  [("a", mkProfile "a" (some "2024-05-01") "2024-01-01" "p"),
   ("b", mkProfile "b" none "2024-06-01" "p"),
   ("c", mkProfile "c" none "" "p")]

/-- Witness store holding one retrievable profile and one whose stored
password is not valid ciphertext. -/
def wFileA : VaultFile :=
  VaultFile.stored
    [("good", mkProfile "good" none "t" (pCipher.enc "pw")),
     ("bad", mkProfile "bad" none "t" "X")]

/-- A second store agreeing with `wFileA` on the entry `bad` only. -/
def wFileB : VaultFile :=
  VaultFile.stored [("bad", mkProfile "bad" none "t" "X")]

/-- Witness directory tree: two regular files, no failures. -/
def wFiles : List FileEntry := [⟨"a.txt", 5, false⟩, ⟨"b.bin", 20000, false⟩]

/-- Witness session: a channel is open but the session is not connected. -/
def wTerm : SSHTerminal :=
  { connected := false, running := false, channel := some { closed := false, sent := [] } }

/-- The example byte string of the split-invariance property. -/
def ansiExample : List Char := "\x1b[31mHELLO\x1b[0m".toList

/-- Registry scenario: three unnamed sessions on a fresh manager. -/
def demoM1 : TerminalManager × String := create_terminal TerminalManager.init none

def demoM2 : TerminalManager × String := create_terminal demoM1.1 none

def demoM3 : TerminalManager × String := create_terminal demoM2.1 none

/-- Registry scenario: remove the second session. -/
def demoM4 : TerminalManager × Bool := remove_terminal demoM3.1 "Terminal 2"

/-- Registry scenario: one more unnamed session after the removal. -/
def demoM5 : TerminalManager × String := create_terminal demoM4.1 none

instance : IsTotal (String × Profile) (fun a b => pyKey b.2 ≤ pyKey a.2) :=
  ⟨fun a b => le_total (pyKey b.2) (pyKey a.2)⟩

instance : IsTrans (String × Profile) (fun a b => pyKey b.2 ≤ pyKey a.2) :=
  ⟨fun _ _ _ hab hbc => le_trans hbc hab⟩

/-! ### Helper lemmas -/

/-- Dict assignment followed by lookup of the same key yields the assigned
value. -/
theorem lookupA_insertA (k : String) (v : Profile) :
    ∀ m : List (String × Profile), lookupA k (insertA k v m) = some v
  | [] => by simp [insertA, lookupA]
  | (k2, v2) :: rest => by
    by_cases h : k2 = k
    · simp [insertA, lookupA, h]
    · simp [insertA, lookupA, h, lookupA_insertA k v rest]

/-- A nonempty file takes at least one 8 KiB chunk. -/
theorem chunkCount_pos {n : Nat} (h : n ≠ 0) : 1 ≤ chunkCount n := by
  unfold chunkCount
  have h2 : 8192 ≤ n + 8191 := by omega
  have h3 : (0 : Nat) < 8192 := by omega
  exact (Nat.one_le_div_iff h3).mpr h2

/-- The total chunk count dominates the number of nonempty files. -/
theorem sum_chunkCounts_ge : ∀ files : List FileEntry,
    (files.filter (fun f => f.size ≠ 0)).length ≤
      (files.map (fun f => chunkCount f.size)).sum
  | [] => by simp
  | f :: rest => by
    have ih := sum_chunkCounts_ge rest
    by_cases h : f.size = 0
    · rw [List.filter_cons, if_neg (by simp [h])]
      simp only [List.map_cons, List.sum_cons]
      omega
    · rw [List.filter_cons, if_pos (by simp [h])]
      simp only [List.map_cons, List.sum_cons, List.length_cons]
      have h1 := chunkCount_pos h
      omega

/-- When every single-file upload succeeds, `upload_directory` uploads every
file in walk order and fires one progress callback per chunk. -/
theorem upload_directory_all_ok :
    ∀ files : List FileEntry, (∀ f ∈ files, f.fails = false) →
      upload_directory files =
        ⟨files.map FileEntry.path, (files.map (fun f => chunkCount f.size)).sum, true⟩
  | [], _ => rfl
  | f :: rest, h => by
    have hf : f.fails = false := h f (List.mem_cons_self f rest)
    have ih := upload_directory_all_ok rest (fun g hg => h g (List.mem_cons_of_mem f hg))
    simp [upload_directory, upload_file_sim, hf, ih]

/-- The first failing file ends the walk: uploads are exactly the successful
prefix plus the failing file. -/
theorem upload_directory_failfast :
    ∀ (pre : List FileEntry) (f : FileEntry) (post : List FileEntry),
      (∀ g ∈ pre, g.fails = false) → f.fails = true →
      (upload_directory (pre ++ f :: post)).uploads = pre.map FileEntry.path ++ [f.path] ∧
      (upload_directory (pre ++ f :: post)).ok = false
  | [], f, _, _, hf => by simp [upload_directory, upload_file_sim, hf]
  | g :: pre, f, post, h, hf => by
    have hg : g.fails = false := h g (List.mem_cons_self g pre)
    have ih := upload_directory_failfast pre f post
      (fun x hx => h x (List.mem_cons_of_mem g hx)) hf
    simp [upload_directory, upload_file_sim, hg, ih.1, ih.2]

/-! ### Claim theorems -/

/-- C1 (counterexample): the interpreter keeps no cross-chunk accumulator, so
splitting `"\x1b[31mHELLO\x1b[0m"` after its second byte — inside the first
escape sequence — yields a different run sequence than feeding it whole. -/
theorem c1_split_counterexample :
    normRuns (feedChunks ∅ [ansiExample.take 2, ansiExample.drop 2]).1 ≠
      normRuns (feedChunks ∅ [ansiExample]).1 := by decide

/-- C1 (amended): feeding `"\x1b[31mHELLO\x1b[0m"` whole yields the single
run `"HELLO"` tagged `{red}` and an empty (reset) attribute set; a split into
two chunks yields the identical run sequence and final attribute set exactly
when the boundary does not fall strictly inside one of the two escape
sequences (boundaries 0, 5–10 and 14 of the 14-character string). -/
theorem c1_split_invariance_amended :
    normRuns (feedChunks ∅ [ansiExample]).1 = [("HELLO".toList, {"red"})] ∧
    (feedChunks ∅ [ansiExample]).2 = ∅ ∧
    ∀ i : Fin 15,
      (normRuns (feedChunks ∅ [ansiExample.take i, ansiExample.drop i]).1 =
          normRuns (feedChunks ∅ [ansiExample]).1 ∧
        (feedChunks ∅ [ansiExample.take i, ansiExample.drop i]).2 =
          (feedChunks ∅ [ansiExample]).2) ↔
        i.val ∈ ([0, 5, 6, 7, 8, 9, 10, 14] : List Nat) := by decide

/-- C2 (counterexample): a parameter 0 at the head of an SGR sequence clears
the attribute set and returns at once, so `ESC[0;31m` leaves the empty set,
not `{red}`. -/
theorem c2_leading_zero_counterexample :
    handle_sgr_codes ∅ [0, 31] = ∅ ∧ handle_sgr_codes ∅ [0, 31] ≠ {"red"} := by decide

/-- C2 (amended): a leading parameter 0 clears the entire attribute set and
aborts the sequence — parameters after it are ignored, so `ESC[0;31m` yields
the empty set from any starting attribute set; a 0 in a later position clears
the set and the parameters after it are still applied, so `ESC[31;0;32m`
yields exactly `{green}` from any starting attribute set. -/
theorem c2_sgr_amended :
    (∀ (tags : Finset String) (rest : List Nat), handle_sgr_codes tags (0 :: rest) = ∅) ∧
    (∀ tags : Finset String, handle_sgr_codes tags [31, 0, 32] = {"green"}) := by
  refine ⟨fun tags rest => rfl, fun tags => ?_⟩
  have h : handle_sgr_codes tags [31, 0, 32] = sgrLoop ∅ [32] := rfl
  rw [h]
  decide

/-- C3: saving a profile and then loading it by name returns the password and
every non-secret field exactly as given, with `last_used` carried over from
any prior stored entry of the same name. -/
theorem c3_save_then_get (c : Cipher) (file : VaultFile)
    (name host username password : String) (port : Nat) (description now : String) :
    get_profile c (save_profile c file name host username password port description now).1 name
      = some { name := name, host := host, username := username, password := password,
               port := port, description := description, created := now,
               last_used := (lookupA name (load_profiles file)).bind Profile.last_used } := by
  simp [get_profile, save_profile, load_profiles, lookupA_insertA, c.dec_enc]

/-- C3 (witness): the round trip at a concrete cipher and store. -/
theorem c3_save_then_get_witness :
    get_profile pCipher
        (save_profile pCipher VaultFile.missing "srv" "host1" "alice" "s3cret" 2222 "box"
          "2025-01-01").1 "srv"
      = some { name := "srv", host := "host1", username := "alice", password := "s3cret",
               port := 2222, description := "box", created := "2025-01-01",
               last_used := (lookupA "srv" (load_profiles VaultFile.missing)).bind
                 Profile.last_used } :=
  c3_save_then_get pCipher VaultFile.missing "srv" "host1" "alice" "s3cret" 2222 "box"
    "2025-01-01"

/-- C5: loading the profile mapping is a total function of the store — a
missing backing file yields the empty mapping, and a file whose ciphertext
fails decryption/authentication also yields the empty mapping instead of an
exception. -/
theorem c5_load_profiles_failure_modes :
    load_profiles VaultFile.missing = [] ∧ load_profiles VaultFile.corrupt = [] :=
  ⟨rfl, rfl⟩

/-- C6: the most-recently-used listing is the names of a permutation of the
stored mapping sorted descending by `last_used`, falling back to `created`
when `last_used` is absent (entries with neither timestamp carry the minimal
key and therefore sort last); `last_used`, when present, is assumed to be a
nonempty timestamp string. -/
theorem c6_list_by_recent_sorted (m : List (String × Profile))
    (h : ∀ e ∈ m, ∀ s, e.2.last_used = some s → s ≠ "") :
    ∃ l : List (String × Profile),
      list_profiles_by_recent (VaultFile.stored m) = l.map Prod.fst ∧
      l.Perm m ∧
      l.Sorted (fun a b => claimKey b.2 ≤ claimKey a.2) := by
  refine ⟨sortProfilesDesc m, rfl, List.perm_insertionSort _ m, ?_⟩
  have hs : (sortProfilesDesc m).Sorted (fun a b => pyKey b.2 ≤ pyKey a.2) :=
    List.sorted_insertionSort (fun a b => pyKey b.2 ≤ pyKey a.2) m
  have hmem : ∀ e ∈ sortProfilesDesc m, pyKey e.2 = claimKey e.2 := by
    intro e he
    have he2 : e ∈ m := (List.perm_insertionSort _ m).subset he
    cases hlu : e.2.last_used with
    | none => simp [pyKey, claimKey, hlu]
    | some s =>
      have hne : s ≠ "" := h e he2 s hlu
      simp [pyKey, claimKey, hlu, hne]
  exact List.Pairwise.imp_of_mem
    (fun ha hb hr => by rw [← hmem _ ha, ← hmem _ hb]; exact hr) hs

/-- C6 (witness): the ordering theorem applied to a concrete three-entry
store. -/
theorem c6_list_by_recent_witness :
    (∀ e ∈ wVault, ∀ s, e.2.last_used = some s → s ≠ "") ∧
    (∃ l : List (String × Profile),
      list_profiles_by_recent (VaultFile.stored wVault) = l.map Prod.fst ∧
      l.Perm wVault ∧
      l.Sorted (fun a b => claimKey b.2 ≤ claimKey a.2)) :=
  ⟨by decide, c6_list_by_recent_sorted wVault (by decide)⟩

/-- C7: on a fresh registry, three unnamed sessions are named `Terminal 1`,
`Terminal 2`, `Terminal 3`; removing `Terminal 2` succeeds, the next unnamed
session is `Terminal 4`, and removal never touches the counter. -/
theorem c7_sequential_names :
    (demoM1.2 = "Terminal 1" ∧ demoM2.2 = "Terminal 2" ∧ demoM3.2 = "Terminal 3" ∧
      demoM4.2 = true ∧ demoM5.2 = "Terminal 4") ∧
    (∀ (m : TerminalManager) (name : String),
      ((remove_terminal m name).1).terminal_counter = m.terminal_counter) := by
  constructor
  · decide
  · intro m name
    unfold remove_terminal
    split <;> rfl

/-- C8: `"\x1b[1;32mOK\x1b[22mdone"` yields the run `"OK"` tagged
`{bold, green}` then the run `"done"` tagged `{green}`: SGR 22 removes bold
(and dim) while the foreground tag persists. -/
theorem c8_bold_then_normal :
    (parse_and_insert_ansi ∅ "\x1b[1;32mOK\x1b[22mdone".toList).runs =
      [("OK".toList, {"bold", "green"}), ("done".toList, {"green"})] ∧
    (parse_and_insert_ansi ∅ "\x1b[1;32mOK\x1b[22mdone".toList).tags = {"green"} := by
  decide

/-- C9: when the session is not connected, or has no channel, or its channel
is closed, `send_input` writes nothing and leaves the session unchanged. -/
theorem c9_send_input_noop (st : SSHTerminal) (data : String)
    (h : st.connected = false ∨ st.channel = none ∨
      ∀ ch, st.channel = some ch → ch.closed = true) :
    send_input st data = st := by
  unfold send_input
  rcases h with h | h | h
  · simp [h]
  · simp [h]
  · cases hc : st.channel with
    | none => simp [hc]
    | some ch =>
      have hcl := h ch hc
      simp [hc, hcl]

/-- C9 (witness): `send_input` on a disconnected session with an open channel
is the identity. -/
theorem c9_send_input_noop_witness :
    (wTerm.connected = false ∨ wTerm.channel = none ∨
      ∀ ch, wTerm.channel = some ch → ch.closed = true) ∧
    send_input wTerm "ls" = wTerm :=
  ⟨Or.inl rfl, c9_send_input_noop wTerm "ls" (Or.inl rfl)⟩

/-- C10: `get_profile` returns `None` exactly when the name is absent from
the mapping or the stored password fails to decrypt — the two causes are
returned identically — and its result for a name depends only on that name's
entry, so one undecryptable profile cannot affect the others. -/
theorem c10_get_profile_none_cases (c : Cipher) (file : VaultFile) (name : String) :
    (get_profile c file name = none ↔
      lookupA name (load_profiles file) = none ∨
      ∃ p, lookupA name (load_profiles file) = some p ∧ c.dec p.password = none) ∧
    (∀ file2 : VaultFile,
      lookupA name (load_profiles file2) = lookupA name (load_profiles file) →
      get_profile c file2 name = get_profile c file name) := by
  constructor
  · unfold get_profile
    cases hl : lookupA name (load_profiles file) with
    | none => simp
    | some p =>
      cases hd : c.dec p.password with
      | none => simp [hd]
      | some pw => simp [hd]
  · intro file2 h2
    unfold get_profile
    rw [h2]

/-- C10 (witness): the isolation clause at a concrete store containing one
profile whose password is not valid ciphertext. -/
theorem c10_get_profile_none_witness :
    (lookupA "bad" (load_profiles wFileB) = lookupA "bad" (load_profiles wFileA)) ∧
    get_profile pCipher wFileB "bad" = get_profile pCipher wFileA "bad" :=
  ⟨by decide, (c10_get_profile_none_cases pCipher wFileA "bad").2 wFileB (by decide)⟩

/-- C4 (counterexample): a directory holding one empty file triggers one
single-file upload that succeeds but fires zero progress callbacks, fewer
than the one-per-file the claim requires. -/
theorem c4_empty_file_counterexample :
    (upload_directory [⟨"empty.txt", 0, false⟩]).uploads.length = 1 ∧
    (upload_directory [⟨"empty.txt", 0, false⟩]).ok = true ∧
    (upload_directory [⟨"empty.txt", 0, false⟩]).progressCalls = 0 ∧
    ¬ 1 ≤ (upload_directory [⟨"empty.txt", 0, false⟩]).progressCalls := by decide

/-- C4 (amended): when every single-file upload succeeds, `upload_directory`
of a tree with K files triggers exactly K single-file uploads in walk order
and fires one progress callback per 8 KiB chunk — so at least one per
nonempty file, but none for an empty file; and if the upload of one file
fails, the walk stops with it: exactly the files before it and the failing
file itself were started. -/
theorem c4_upload_directory_progress (files : List FileEntry) :
    ((∀ f ∈ files, f.fails = false) →
      (upload_directory files).uploads = files.map FileEntry.path ∧
      (upload_directory files).ok = true ∧
      (upload_directory files).progressCalls = (files.map (fun f => chunkCount f.size)).sum ∧
      (files.filter (fun f => f.size ≠ 0)).length ≤ (upload_directory files).progressCalls) ∧
    (∀ pre f post, files = pre ++ f :: post →
      (∀ g ∈ pre, g.fails = false) → f.fails = true →
      (upload_directory files).uploads = pre.map FileEntry.path ++ [f.path] ∧
      (upload_directory files).ok = false) := by
  constructor
  · intro h
    rw [upload_directory_all_ok files h]
    exact ⟨rfl, rfl, rfl, sum_chunkCounts_ge files⟩
  · intro pre f post heq hpre hf
    subst heq
    exact upload_directory_failfast pre f post hpre hf

/-- C4 (witness): the success clause on a concrete two-file tree. -/
theorem c4_upload_directory_witness :
    (∀ f ∈ wFiles, f.fails = false) ∧
    ((upload_directory wFiles).uploads = wFiles.map FileEntry.path ∧
      (upload_directory wFiles).ok = true ∧
      (upload_directory wFiles).progressCalls =
        (wFiles.map (fun f => chunkCount f.size)).sum ∧
      (wFiles.filter (fun f => f.size ≠ 0)).length ≤
        (upload_directory wFiles).progressCalls) :=
  ⟨by decide, (c4_upload_directory_progress wFiles).1 (by decide)⟩

end SwiftSSH
